import Mathlib

/-!
Verification of the aapy downloader core (src/aapy.py).

The Python source is shallowly embedded below.  Pure string and list
manipulation is translated directly; the HTML page is represented by the
structured data the source reads out of it (the result anchors and the
page-level partial-matches indicator), since the claims under study are
about the processing that happens after BeautifulSoup has parsed the
markup.  Network effects are represented by an oracle giving the outcome
of each transport attempt, and the interactive menu by the index the user
picks.  Exceptions that the source lets escape are modelled with `Except`.
-/

/-- ASCII model of Python `str.lower()`: lowercase every character
(`Char.toLower` folds `A`-`Z`; all inputs appearing in this development
are ASCII). -/
def pyLower (s : String) : String :=
  String.mk (s.data.map Char.toLower)

/-- `listContainsSub needle hay`: does `needle` occur as a contiguous
sublist of `hay`?  This models the Python substring operator `in`. -/
def listContainsSub : List Char → List Char → Bool
  | needle, [] => needle.isEmpty
  | needle, c :: rest => List.isPrefixOf needle (c :: rest) || listContainsSub needle rest

/-- `strContainsB hay needle` models Python `needle in hay` on strings. -/
def strContainsB (hay needle : String) : Bool :=
  listContainsSub needle.data hay.data

/-- Does the string start with the exclusion marker `anti__`? -/
def hasAntiMarker (s : String) : Bool :=
  List.isPrefixOf "anti__".data s.data

/-- One format definition from `config['formats']['definitions']`.
`priority` is `Option` because the source reads it with
`format_info.get('priority', 0)`; the other fields are read by direct
indexing. -/
structure FormatInfo where
  priority : Option Int
  extension : String
  display_name : String
  icon : String
deriving DecidableEq

/-- The configuration document, restricted to the fields the embedded
functions read.  Scalar fields hold the value after the defaults of
`generate_search_params` (`config['search'].get('index', '')` and
friends) have been applied; an absent list section is the empty list,
exactly the default the source supplies with `.get(..., [])`.
`formats_defs` is the insertion-ordered `formats.definitions` dict. -/
structure Config where
  search_index : String
  search_page : String
  search_display : String
  search_sort : String
  content_types : List String
  content_ignore : List String
  formats_defs : List (String × FormatInfo)
  formats_ignore : List String
  access_types : List String
  access_ignore : List String
  lang_types : List String
  lang_ignore : List String
deriving DecidableEq

/-- The `params` dict built by `generate_search_params`, with its fields
in the insertion order of the source. -/
structure SearchParams where
  index : String
  page : String
  q : String
  display : String
  sort : String
  content : List String
  ext : List String
  acc : List String
  lang : List String
deriving DecidableEq

/-- One iteration of the include/exclude loops of
`generate_search_params`: `if item not in ignore: append(item) else:
append(f"anti__{item}")`. -/
def tagItem (ignore : List String) (item : String) : String :=
  if item ∉ ignore then item else "anti__" ++ item

/-- `generate_search_params(config, query)` (src/aapy.py lines 185-239). -/
def generate_search_params (config : Config) (query : String) : SearchParams :=
  { index := config.search_index
    page := config.search_page
    q := query
    display := config.search_display
    sort := config.search_sort
    content := config.content_types.map (tagItem config.content_ignore)
    ext := (config.formats_defs.map Prod.fst).map (tagItem config.formats_ignore)
    acc := config.access_types.map (tagItem config.access_ignore)
    lang := config.lang_types.map (tagItem config.lang_ignore) }

/-- A scalar entry of the dict: appended as `key=value` only when the
value is truthy (for strings: non-empty). -/
def scalarPart (key value : String) : List (String × String) :=
  if value = "" then [] else [(key, value)]

/-- A list-valued entry of the dict: one `key=item` part per item. -/
def listParts (key : String) (values : List String) : List (String × String) :=
  values.map (fun v => (key, v))

/-- The `query_parts` list built by `construct_search_url` (lines
283-291), as (key, value) pairs, iterating the dict in insertion order. -/
def queryParts (query : String) (config : Config) : List (String × String) :=
  let p := generate_search_params config query
  scalarPart "index" p.index ++ scalarPart "page" p.page ++ scalarPart "q" p.q ++
    scalarPart "display" p.display ++ scalarPart "sort" p.sort ++
    listParts "content" p.content ++ listParts "ext" p.ext ++
    listParts "acc" p.acc ++ listParts "lang" p.lang

def BASE_URL : String := "https://annas-archive.org"

/-- `construct_search_url(query, config)` (lines 279-293). -/
def construct_search_url (query : String) (config : Config) : String :=
  BASE_URL ++ "/search?" ++
    String.intercalate "&" ((queryParts query config).map (fun kv => kv.1 ++ "=" ++ kv.2))

/-- The scan inside `determine_format_type`: first catalog entry whose
key occurs in the (already lowered) text. -/
def findFormat (loweredText : String) : List (String × FormatInfo) → Option (String × FormatInfo)
  | [] => none
  | (key, info) :: rest =>
    if strContainsB loweredText key then some (key, info) else findFormat loweredText rest

/-- `determine_format_type(text, config)` (lines 295-304).  The source
lowers the text (`text = text.lower()`) and then tests `format_key in
text` for each definition in dict order; `(None, None)` becomes `none`. -/
def determine_format_type (text : String) (config : Config) : Option (String × FormatInfo) :=
  findFormat (pyLower text) config.formats_defs

/-- First whitespace-separated token of a character list: models
`text.split()[0]`, with `none` for the `IndexError` of an all-whitespace
string. -/
def firstWsToken : List Char → Option String
  | [] => none
  | c :: rest =>
    if c.isWhitespace then firstWsToken rest
    else some (String.mk ((c :: rest).takeWhile (fun d => !d.isWhitespace)))

/-- Digit-group syntax accepted by Python `int()` after the optional
sign: one or more decimal digits with single underscores allowed between
digits. -/
def intDigitsOk : List Char → Bool
  | [] => false
  | [c] => c.isDigit
  | c :: '_' :: rest => c.isDigit && intDigitsOk rest
  | c :: c2 :: rest => c.isDigit && intDigitsOk (c2 :: rest)

def digitsToNat (ds : List Char) : Nat :=
  ds.foldl (fun acc c => acc * 10 + (c.toNat - 48)) 0

/-- Model of Python `int(s)` on the whitespace-free tokens it is applied
to here (ASCII decimal, optional sign, underscore separators); `none`
models the `ValueError` the source catches. -/
def pyParseInt (s : String) : Option Int :=
  match s.data with
  | '+' :: rest =>
    if intDigitsOk rest then some (Int.ofNat (digitsToNat (rest.filter (fun c => c != '_')))) else none
  | '-' :: rest =>
    if intDigitsOk rest then some (-(Int.ofNat (digitsToNat (rest.filter (fun c => c != '_'))))) else none
  | cs =>
    if intDigitsOk cs then some (Int.ofNat (digitsToNat (cs.filter (fun c => c != '_')))) else none

/-- `int(count_text.split()[0])` wrapped in the try/except of lines
319-323: both the `IndexError` (no token) and the `ValueError` (token
not an integer literal) collapse to `none`. -/
def parseLeadingCount (t : String) : Option Int :=
  (firstWsToken t.data).bind pyParseInt

/-- One result anchor (`a[href^="/md5/"]`) as the extractor reads it:
`allText` is `link.get_text(separator=' ', strip=True)`, and the three
optional fields hold the stripped text of the first matching `h3`,
`div.italic` and `div.text-gray-500` child, when present. -/
structure Anchor where
  href : String
  allText : String
  titleElem : Option String
  authorElem : Option String
  formatElem : Option String
deriving DecidableEq

/-- A search-results page after the comment-delimiter stripping and
BeautifulSoup parsing of lines 308-316: the text of the
`div.italic.mt-2` indicator when that node exists, and the result
anchors in document order. -/
structure Page where
  partialIndicator : Option String
  anchors : List Anchor
deriving DecidableEq

/-- The `book_info` dict built for each kept anchor (lines 367-377). -/
structure Book where
  link : String
  title : String
  author : String
  format : String
  format_key : String
  format_info : FormatInfo
  format_priority : Int
  original_index : Nat
  is_partial_match : Bool
deriving DecidableEq

/-- `partial_matches_count` as computed by lines 314-323: present only
when the indicator node exists, contains "partial matches", and its
first token parses as an integer. -/
def partialMatchesCount (page : Page) : Option Int :=
  match page.partialIndicator with
  | none => none
  | some t => if strContainsB t "partial matches" then parseLeadingCount t else none

/-- The body of the `for i, link in enumerate(book_links)` loop (lines
330-379) for a single anchor: `none` when the anchor is skipped
(unrecognized format, or format in the ignore list). -/
def buildBook (config : Config) (count : Option Int) (i : Nat) (a : Anchor) : Option Book :=
  match determine_format_type a.allText config with
  | none => none
  | some (key, info) =>
    if key ∈ config.formats_ignore then none
    else some
      { link := a.href
        title := a.titleElem.getD "Unknown Title"
        author := a.authorElem.getD "Unknown Author"
        format := a.formatElem.getD "Unknown format"
        format_key := key
        format_info := info
        format_priority := info.priority.getD 0
        original_index := i
        is_partial_match := count.isSome }

/-- The whole extraction loop: the enumeration index advances for every
anchor, including skipped ones. -/
def rawBooks (config : Config) (count : Option Int) : Nat → List Anchor → List Book
  | _, [] => []
  | i, a :: rest =>
    match buildBook config count i a with
    | none => rawBooks config count (i + 1) rest
    | some b => b :: rawBooks config count (i + 1) rest

/-- The sort relation of line 382, `key=lambda x: (-x['format_priority'],
x['original_index'])`: lexicographic `≤` on the pair (negated priority,
original index). -/
def rankLE (x y : Book) : Prop :=
  -x.format_priority < -y.format_priority ∨
    (-x.format_priority = -y.format_priority ∧ x.original_index ≤ y.original_index)

instance : DecidableRel rankLE := fun x y => by
  unfold rankLE
  exact inferInstance

instance : IsTotal Book rankLE := by
  constructor
  intro x y
  simp only [rankLE]
  omega

instance : IsTrans Book rankLE := by
  constructor
  intro a b c h1 h2
  simp only [rankLE] at h1 h2 ⊢
  omega

/-- `books.sort(key=lambda x: (-x['format_priority'],
x['original_index']))`: Python `list.sort` is a stable sort, embedded as
the stable insertion sort under the same total preorder. -/
def rankBooks (books : List Book) : List Book :=
  List.insertionSort rankLE books

/-- `extract_search_results(html_content, config)` (lines 306-385), on
the parsed representation of the page. -/
def extract_search_results (page : Page) (config : Config) : List Book :=
  rankBooks (rawBooks config (partialMatchesCount page) 0 page.anchors)

/-- What `display_selection_menu` hands back: whether the inquirer menu
was put on screen, and the `Choice` value the user picked. -/
structure MenuOutcome where
  prompted : Bool
  value : Option Nat
deriving DecidableEq

/-- `display_selection_menu(books, ...)` (lines 387-444).  For an empty
list it returns `None` without prompting; otherwise it always runs the
inquirer menu whose choices are `some 0, ..., some (n-1)` followed by the
cancel entry `none`.  The user interaction is modelled by `pick`, the
index of the menu entry the user selects; the UI cannot produce an entry
outside the menu, so an out-of-range `pick` defaults to the cancel
value. -/
def display_selection_menu (books : List Book) (pick : Nat) : MenuOutcome :=
  if books.isEmpty then { prompted := false, value := none }
  else
    { prompted := true
      value := (((List.range books.length).map some) ++ [none]).getD pick none }

/-- The selection step of `download_book_by_query` (lines 608-621):
interactive mode always shows the menu and indexes `books` with the
chosen value (`none` = user cancelled); automatic mode takes `books[0]`.
Returns (was a prompt shown, selected book). -/
def selectStage (books : List Book) (interactive : Bool) (pick : Nat) : Bool × Option Book :=
  if interactive then
    ((display_selection_menu books pick).prompted,
      (display_selection_menu books pick).value.bind (fun i => books.get? i))
  else
    (false, books.head?)

/-- The automatic-mode selection rule exactly as the claim under study
states it (first candidate whose title or author contains the query
case-insensitively, else the first candidate).  This definition follows
the words of the spec, for comparison against `selectStage`. -/
def claimedAutoSelect (books : List Book) (query : String) : Option Book :=
  match books.find? (fun b =>
      strContainsB (pyLower b.title) (pyLower query) ||
        strContainsB (pyLower b.author) (pyLower query)) with
  | some b => some b
  | none => books.head?

/-- Case-insensitive substring relation, as worded by the format-lookup
claim: `needle` occurs in `hay` up to case.  Spec-side definition, for
comparison with `determine_format_type`. -/
def ciSubstr (needle hay : String) : Bool :=
  strContainsB (pyLower hay) (pyLower needle)

/-- Outcome of one transport attempt inside `robust_request`: a response
with a successful status, or one of the three caught exception classes
(`Timeout`, `ConnectionError`, other `RequestException`, the last also
covering the `HTTPError` from `raise_for_status`). -/
inductive Outcome
  | success
  | timeout
  | connError
  | reqError
deriving DecidableEq

instance {ε α : Type} [DecidableEq ε] [DecidableEq α] : DecidableEq (Except ε α) := fun a b =>
  match a, b with
  | Except.error x, Except.error y =>
    if h : x = y then isTrue (by rw [h]) else isFalse (fun he => h (Except.error.inj he))
  | Except.ok x, Except.ok y =>
    if h : x = y then isTrue (by rw [h]) else isFalse (fun he => h (Except.ok.inj he))
  | Except.error _, Except.ok _ => isFalse (fun he => Except.noConfusion he)
  | Except.ok _, Except.error _ => isFalse (fun he => Except.noConfusion he)

/-- Observable result of one `robust_request` call: `result` is
`Except.error ()` when an exception escapes to the caller (the
`ValueError` of line 114), `Except.ok (some k)` for a response obtained
on attempt `k`, and `Except.ok none` for the `return None` paths;
`attempts` counts transport attempts actually made and `sleeps` records
the `time.sleep(retry_delay)` calls. -/
structure FetchTrace where
  result : Except Unit (Option Nat)
  attempts : Nat
  sleeps : List Nat
deriving DecidableEq

/-- The retry loop of lines 102-150, for a supported method: `attempt`
is the 1-based loop counter, the second argument the number of loop
iterations still available (`retries - attempt + 1`).  On a failure with
`attempt == retries` the function returns `None`; otherwise it sleeps
`retry_delay` seconds and retries. -/
def attemptLoop (oracle : Nat → Outcome) (retryDelay : Nat) : Nat → Nat → Option Nat × Nat × List Nat
  | _, 0 => (none, 0, [])
  | attempt, 1 =>
    match oracle attempt with
    | Outcome.success => (some attempt, 1, [])
    | _ => (none, 1, [])
  | attempt, remaining + 2 =>
    match oracle attempt with
    | Outcome.success => (some attempt, 1, [])
    | _ =>
      let rest := attemptLoop oracle retryDelay (attempt + 1) (remaining + 1)
      (rest.1, rest.2.1 + 1, retryDelay :: rest.2.2)

/-- `method.lower()` against the three dispatch branches of lines
107-112. -/
def supportedMethod (m : String) : Bool :=
  pyLower m == "get" || pyLower m == "head" || pyLower m == "post"

/-- `robust_request` (lines 76-154).  An unsupported method raises
`ValueError` inside the first loop iteration and no except clause
catches it, so it escapes to the caller — unless `retries = 0`, in which
case `range(1, retries + 1)` is empty and the trailing `return None`
runs. -/
def robust_request (method : String) (oracle : Nat → Outcome) (retries retryDelay : Nat) : FetchTrace :=
  if supportedMethod method then
    { result := Except.ok (attemptLoop oracle retryDelay 1 retries).1
      attempts := (attemptLoop oracle retryDelay 1 retries).2.1
      sleeps := (attemptLoop oracle retryDelay 1 retries).2.2 }
  else if retries = 0 then { result := Except.ok none, attempts := 0, sleeps := [] }
  else { result := Except.error (), attempts := 0, sleeps := [] }

/-- The character class of `clean_filename`: `[\\/*?:"<>|]`. -/
def hostileChar (c : Char) : Bool :=
  c == '\\' || c == '/' || c == '*' || c == '?' || c == ':' || c == '"' ||
    c == '<' || c == '>' || c == '|'

/-- `clean_filename(text)` (lines 555-557): delete every occurrence of a
path-hostile character. -/
def clean_filename (s : String) : String :=
  String.mk (s.data.filter (fun c => !hostileChar c))

/-- Case-insensitive header lookup, modelling the `CaseInsensitiveDict`
that `requests` uses for response headers. -/
def headerLookup (headers : List (String × String)) (key : String) : Option String :=
  (headers.find? (fun kv => pyLower kv.1 == pyLower key)).map Prod.snd

/-- Match of the regex `filename="?([^"]+)"?` anchored at the start of
`cs`: the literal `filename=`, an optional double quote, then the
(greedy, non-empty) capture of non-quote characters. -/
def reFilenameAt (cs : List Char) : Option String :=
  if List.isPrefixOf "filename=".data cs then
    match cs.drop "filename=".data.length with
    | [] => none
    | '"' :: rest =>
      match rest.takeWhile (fun c => c != '"') with
      | [] => none
      | run => some (String.mk run)
    | rest => some (String.mk (rest.takeWhile (fun c => c != '"')))
  else none

/-- `re.search(r'filename="?([^"]+)"?', v)`: try each start position
left to right. -/
def reSearchFilename : List Char → Option String
  | [] => none
  | c :: cs =>
    match reFilenameAt (c :: cs) with
    | some r => some r
    | none => reSearchFilename cs

/-- Last index of `c` in `cs`, or `-1` when absent: Python `rfind`. -/
def rfindIdx (c : Char) (cs : List Char) : Int :=
  (cs.foldl (fun (acc : Int × Int) d => (if d = c then acc.2 else acc.1, acc.2 + 1)) (-1, 0)).1

/-- `os.path.splitext(p)[0]` (posix rules): cut at the last dot, unless
it belongs to the leading dots of the basename. -/
def pySplitextBase (s : String) : String :=
  let cs := s.data
  let sep := rfindIdx '/' cs
  let dot := rfindIdx '.' cs
  if dot > sep then
    if ((cs.drop (sep + 1).toNat).take (dot - (sep + 1)).toNat).any (fun c => c != '.') then
      String.mk (cs.take dot.toNat)
    else s
  else s

/-- `get_filename_from_headers(headers, format_info)` (lines 540-553):
`none` when the header is absent or the regex finds no filename;
otherwise the captured filename, with its extension replaced by the
format extension when a format is known. -/
def get_filename_from_headers (headers : List (String × String)) (format_info : Option FormatInfo) :
    Option String :=
  match headerLookup headers "content-disposition" with
  | none => none
  | some v =>
    match reSearchFilename v.data with
    | none => none
    | some filename =>
      match format_info with
      | none => some filename
      | some info => some (pySplitextBase filename ++ info.extension)

/-- The filename resolution of `download_book_by_query` (lines 671-677):
header-derived name when available, else
`f"{clean title} - {clean author}{extension}"`. -/
def resolve_download_filename (headers : List (String × String)) (title author : String)
    (info : FormatInfo) : String :=
  match get_filename_from_headers headers (some info) with
  | some f => f
  | none => clean_filename title ++ " - " ++ clean_filename author ++ info.extension

/-! ## Concrete fixtures used by the scenario conjuncts and witnesses -/

/-- An EPUB format definition with priority 100. -/
def epubInfo : FormatInfo :=
  { priority := some 100, extension := ".epub", display_name := "EPUB", icon := "E" }

/-- A PDF format definition with priority 80. -/
def pdfInfo : FormatInfo :=
  { priority := some 80, extension := ".pdf", display_name := "PDF", icon := "P" }

/-- A small configuration with the two formats above enabled. -/
def cfgA : Config :=
  { search_index := "", search_page := "1", search_display := "", search_sort := ""
    content_types := ["book_nonfiction"], content_ignore := []
    formats_defs := [("epub", epubInfo), ("pdf", pdfInfo)], formats_ignore := []
    access_types := ["aa_download"], access_ignore := []
    lang_types := ["en"], lang_ignore := [] }

def anchorA0 : Anchor :=
  { href := "/md5/a0", allText := "First Book EPUB 1.0MB", titleElem := some "First Book"
    authorElem := some "Author One", formatElem := some "EPUB, 1.0MB" }

def anchorA1 : Anchor :=
  { href := "/md5/a1", allText := "Second Book PDF 2.0MB", titleElem := some "Second Book"
    authorElem := some "Author Two", formatElem := some "PDF, 2.0MB" }

def anchorA2 : Anchor :=
  { href := "/md5/a2", allText := "Third Book EPUB 3.0MB", titleElem := some "Third Book"
    authorElem := some "Author Three", formatElem := some "EPUB, 3.0MB" }

/-- Scenario A page: EPUB, PDF, EPUB anchors at positions 0, 1, 2. -/
def pageA : Page := { partialIndicator := none, anchors := [anchorA0, anchorA1, anchorA2] }

/-- Scenario B page: partial-matches indicator plus two matching anchors. -/
def pageB : Page := { partialIndicator := some "3 partial matches", anchors := [anchorA0, anchorA1] }

/-- The Foundation candidate of Scenario C (priority 100, ranked first). -/
def bFoundation : Book :=
  { link := "/md5/f", title := "Foundation", author := "Isaac Asimov", format := "EPUB"
    format_key := "epub", format_info := epubInfo, format_priority := 100
    original_index := 0, is_partial_match := false }

/-- The Dune candidate of Scenario C (priority 80, ranked second). -/
def bDune : Book :=
  { link := "/md5/d", title := "Dune", author := "Frank Herbert", format := "PDF"
    format_key := "pdf", format_info := pdfInfo, format_priority := 80
    original_index := 1, is_partial_match := false }

/-- An EPUB book as `buildBook` produces it from `anchorA0` under `cfgA`
on a page without a partial-matches indicator. -/
def bEpubA0 : Book :=
  { link := "/md5/a0", title := "First Book", author := "Author One", format := "EPUB, 1.0MB"
    format_key := "epub", format_info := epubInfo, format_priority := 100
    original_index := 0, is_partial_match := false }

/-- The same book as extracted from `pageB`, whose partial-matches
indicator sets the flag. -/
def bEpubB0 : Book :=
  { link := "/md5/a0", title := "First Book", author := "Author One", format := "EPUB, 1.0MB"
    format_key := "epub", format_info := epubInfo, format_priority := 100
    original_index := 0, is_partial_match := true }

/-- `cfgA` with a single, upper-case format key. -/
def cfgUpper : Config := { cfgA with formats_defs := [("EPUB", epubInfo)] }

/-! ## Helper lemmas -/

theorem strAppendLeftCancel {s t u : String} (h : s ++ t = s ++ u) : t = u := by
  obtain ⟨sd⟩ := s
  obtain ⟨td⟩ := t
  obtain ⟨ud⟩ := u
  have h2 : sd ++ td = sd ++ ud := congrArg String.data h
  exact congrArg String.mk (List.append_cancel_left h2)

theorem hasAntiMarker_anti (y : String) : hasAntiMarker ("anti__" ++ y) = true := by
  obtain ⟨yd⟩ := y
  show List.isPrefixOf "anti__".data ("anti__".data ++ yd) = true
  rw [List.isPrefixOf_iff_prefix]
  exact List.prefix_append _ _

theorem ne_anti_of_no_marker {x : String} (h : hasAntiMarker x = false) (y : String) :
    x ≠ "anti__" ++ y := by
  intro he
  subst he
  rw [hasAntiMarker_anti] at h
  exact Bool.noConfusion h

theorem countP_scalarPart_ne (k v : String) (p : String × String → Bool)
    (h : ∀ x, p (k, x) = false) : (scalarPart k v).countP p = 0 := by
  unfold scalarPart
  split
  · rfl
  · simp [List.countP_cons, h]

theorem countP_scalarPart_empty (k : String) (p : String × String → Bool) :
    (scalarPart k "").countP p = 0 := by
  unfold scalarPart
  simp

theorem countP_listParts_ne (k : String) (vs : List String) (p : String × String → Bool)
    (h : ∀ x, p (k, x) = false) : (listParts k vs).countP p = 0 := by
  unfold listParts
  rw [List.countP_map]
  apply List.countP_eq_zero.mpr
  intro a _
  simp [Function.comp, h]

/-- `queryParts` written out without the intermediate `SearchParams`. -/
theorem queryParts_eq (query : String) (c : Config) :
    queryParts query c =
      scalarPart "index" c.search_index ++ scalarPart "page" c.search_page ++
        scalarPart "q" query ++ scalarPart "display" c.search_display ++
        scalarPart "sort" c.search_sort ++
        listParts "content" (c.content_types.map (tagItem c.content_ignore)) ++
        listParts "ext" ((c.formats_defs.map Prod.fst).map (tagItem c.formats_ignore)) ++
        listParts "acc" (c.access_types.map (tagItem c.access_ignore)) ++
        listParts "lang" (c.lang_types.map (tagItem c.lang_ignore)) := rfl

/-! ## Claim theorems -/

/-- Claim C10: building the search URL with the empty query yields no
`q` parameter occurrence at all — the empty-scalar omission rule applies
to the query itself.  Stated on the (key, value) parts the URL is joined
from. -/
theorem claim_C10 (c : Config) : (queryParts "" c).countP (fun kv => kv.1 == "q") = 0 := by
  rw [queryParts_eq]
  simp only [List.countP_append]
  rw [countP_scalarPart_ne "index" _ _ (fun _ => rfl),
    countP_scalarPart_ne "page" _ _ (fun _ => rfl),
    countP_scalarPart_empty,
    countP_scalarPart_ne "display" _ _ (fun _ => rfl),
    countP_scalarPart_ne "sort" _ _ (fun _ => rfl),
    countP_listParts_ne "content" _ _ (fun _ => rfl),
    countP_listParts_ne "ext" _ _ (fun _ => rfl),
    countP_listParts_ne "acc" _ _ (fun _ => rfl),
    countP_listParts_ne "lang" _ _ (fun _ => rfl)]

/-- Does a (key, value) part encode the catalog item `item` on the axis
`axisKey`, either as the bare item or with the exclusion marker? -/
def occMatch (axisKey item : String) (kv : String × String) : Bool :=
  kv.1 == axisKey && (kv.2 == item || kv.2 == "anti__" ++ item)

theorem occMatch_key (k item x : String) :
    occMatch k item (k, x) = (x == item || x == "anti__" ++ item) := by
  simp [occMatch]

theorem tag_eq_iff (ignore : List String) {types : List String}
    (hanti : ∀ x ∈ types, hasAntiMarker x = false)
    {item t : String} (hitem : item ∈ types) (ht : t ∈ types) :
    (tagItem ignore t == item || tagItem ignore t == "anti__" ++ item) = true ↔
      (t == item) = true := by
  constructor
  · intro h
    rw [Bool.or_eq_true] at h
    rcases h with h1 | h1
    · rw [beq_iff_eq] at h1
      unfold tagItem at h1
      split at h1
      · rw [beq_iff_eq]
        exact h1
      · exact absurd h1.symm (ne_anti_of_no_marker (hanti item hitem) t)
    · rw [beq_iff_eq] at h1
      unfold tagItem at h1
      split at h1
      · exact absurd h1 (ne_anti_of_no_marker (hanti t ht) item)
      · rw [beq_iff_eq]
        exact strAppendLeftCancel h1
  · intro h
    rw [beq_iff_eq] at h
    subst h
    unfold tagItem
    split
    · simp
    · simp

theorem axis_occurrence (k : String) (types ignore : List String)
    (hnd : types.Nodup) (hanti : ∀ x ∈ types, hasAntiMarker x = false)
    {item : String} (hitem : item ∈ types) :
    (listParts k (types.map (tagItem ignore))).countP (occMatch k item) = 1 ∧
    (k, tagItem ignore item) ∈ listParts k (types.map (tagItem ignore)) := by
  constructor
  · unfold listParts
    rw [List.countP_map, List.countP_map]
    have hcongr : ∀ t ∈ types,
        ((occMatch k item ∘ fun v => (k, v)) ∘ tagItem ignore) t = true ↔
          (fun t => t == item) t = true := by
      intro t ht
      show occMatch k item (k, tagItem ignore t) = true ↔ (t == item) = true
      rw [occMatch_key]
      exact tag_eq_iff ignore hanti hitem ht
    rw [List.countP_congr hcongr, ← List.count_eq_countP]
    exact List.count_eq_one_of_mem hnd hitem
  · unfold listParts
    exact List.mem_map_of_mem _ (List.mem_map_of_mem _ hitem)

/-- Claim C3: for every configuration, each filterable axis of the built
search request carries exactly one parameter occurrence per catalog item
of that axis — the bare item when enabled, the `anti__`-prefixed item
when ignored — and no item is omitted.  The no-duplicate and no-marker
hypotheses say the catalog lists are well formed (distinct items, none
already carrying the reserved exclusion marker). -/
theorem claim_C3 (c : Config) (query : String)
    (h1 : c.content_types.Nodup) (h2 : (c.formats_defs.map Prod.fst).Nodup)
    (h3 : c.access_types.Nodup) (h4 : c.lang_types.Nodup)
    (h5 : ∀ x ∈ c.content_types, hasAntiMarker x = false)
    (h6 : ∀ x ∈ c.formats_defs.map Prod.fst, hasAntiMarker x = false)
    (h7 : ∀ x ∈ c.access_types, hasAntiMarker x = false)
    (h8 : ∀ x ∈ c.lang_types, hasAntiMarker x = false) :
    (∀ item ∈ c.content_types,
        (queryParts query c).countP (occMatch "content" item) = 1 ∧
        ("content", tagItem c.content_ignore item) ∈ queryParts query c) ∧
    (∀ item ∈ c.formats_defs.map Prod.fst,
        (queryParts query c).countP (occMatch "ext" item) = 1 ∧
        ("ext", tagItem c.formats_ignore item) ∈ queryParts query c) ∧
    (∀ item ∈ c.access_types,
        (queryParts query c).countP (occMatch "acc" item) = 1 ∧
        ("acc", tagItem c.access_ignore item) ∈ queryParts query c) ∧
    (∀ item ∈ c.lang_types,
        (queryParts query c).countP (occMatch "lang" item) = 1 ∧
        ("lang", tagItem c.lang_ignore item) ∈ queryParts query c) := by
  refine ⟨?_, ?_, ?_, ?_⟩
  · intro item hitem
    obtain ⟨hcount, hmem⟩ := axis_occurrence "content" c.content_types c.content_ignore h1 h5 hitem
    constructor
    · rw [queryParts_eq]
      simp only [List.countP_append]
      rw [countP_scalarPart_ne "index" _ _ (fun _ => rfl),
        countP_scalarPart_ne "page" _ _ (fun _ => rfl),
        countP_scalarPart_ne "q" _ _ (fun _ => rfl),
        countP_scalarPart_ne "display" _ _ (fun _ => rfl),
        countP_scalarPart_ne "sort" _ _ (fun _ => rfl),
        countP_listParts_ne "ext" _ _ (fun _ => rfl),
        countP_listParts_ne "acc" _ _ (fun _ => rfl),
        countP_listParts_ne "lang" _ _ (fun _ => rfl), hcount]
    · rw [queryParts_eq]
      exact List.mem_append_left _ (List.mem_append_left _ (List.mem_append_left _
        (List.mem_append_right _ hmem)))
  · intro item hitem
    obtain ⟨hcount, hmem⟩ :=
      axis_occurrence "ext" (c.formats_defs.map Prod.fst) c.formats_ignore h2 h6 hitem
    constructor
    · rw [queryParts_eq]
      simp only [List.countP_append]
      rw [countP_scalarPart_ne "index" _ _ (fun _ => rfl),
        countP_scalarPart_ne "page" _ _ (fun _ => rfl),
        countP_scalarPart_ne "q" _ _ (fun _ => rfl),
        countP_scalarPart_ne "display" _ _ (fun _ => rfl),
        countP_scalarPart_ne "sort" _ _ (fun _ => rfl),
        countP_listParts_ne "content" _ _ (fun _ => rfl),
        countP_listParts_ne "acc" _ _ (fun _ => rfl),
        countP_listParts_ne "lang" _ _ (fun _ => rfl), hcount]
    · rw [queryParts_eq]
      exact List.mem_append_left _ (List.mem_append_left _ (List.mem_append_right _ hmem))
  · intro item hitem
    obtain ⟨hcount, hmem⟩ := axis_occurrence "acc" c.access_types c.access_ignore h3 h7 hitem
    constructor
    · rw [queryParts_eq]
      simp only [List.countP_append]
      rw [countP_scalarPart_ne "index" _ _ (fun _ => rfl),
        countP_scalarPart_ne "page" _ _ (fun _ => rfl),
        countP_scalarPart_ne "q" _ _ (fun _ => rfl),
        countP_scalarPart_ne "display" _ _ (fun _ => rfl),
        countP_scalarPart_ne "sort" _ _ (fun _ => rfl),
        countP_listParts_ne "content" _ _ (fun _ => rfl),
        countP_listParts_ne "ext" _ _ (fun _ => rfl),
        countP_listParts_ne "lang" _ _ (fun _ => rfl), hcount]
    · rw [queryParts_eq]
      exact List.mem_append_left _ (List.mem_append_right _ hmem)
  · intro item hitem
    obtain ⟨hcount, hmem⟩ := axis_occurrence "lang" c.lang_types c.lang_ignore h4 h8 hitem
    constructor
    · rw [queryParts_eq]
      simp only [List.countP_append]
      rw [countP_scalarPart_ne "index" _ _ (fun _ => rfl),
        countP_scalarPart_ne "page" _ _ (fun _ => rfl),
        countP_scalarPart_ne "q" _ _ (fun _ => rfl),
        countP_scalarPart_ne "display" _ _ (fun _ => rfl),
        countP_scalarPart_ne "sort" _ _ (fun _ => rfl),
        countP_listParts_ne "content" _ _ (fun _ => rfl),
        countP_listParts_ne "ext" _ _ (fun _ => rfl),
        countP_listParts_ne "acc" _ _ (fun _ => rfl), hcount]
    · rw [queryParts_eq]
      exact List.mem_append_right _ hmem

/-- A configuration exercising both the bare and the excluded form. -/
def cfgW : Config :=
  { search_index := "", search_page := "1", search_display := "", search_sort := ""
    content_types := ["book_any", "magazine"], content_ignore := ["magazine"]
    formats_defs := [("epub", epubInfo), ("pdf", pdfInfo)], formats_ignore := ["pdf"]
    access_types := ["aa_download", "external_download"], access_ignore := []
    lang_types := ["en"], lang_ignore := [] }

/-- Witness for claim C3 at a concrete configuration: the ignored
content type and the ignored format each occur exactly once, in their
`anti__`-tagged form. -/
theorem claim_C3_witness :
    cfgW.content_types.Nodup ∧ (∀ x ∈ cfgW.content_types, hasAntiMarker x = false) ∧
    (queryParts "dune" cfgW).countP (occMatch "content" "magazine") = 1 ∧
    ("content", "anti__magazine") ∈ queryParts "dune" cfgW ∧
    (queryParts "dune" cfgW).countP (occMatch "ext" "pdf") = 1 ∧
    ("ext", "anti__pdf") ∈ queryParts "dune" cfgW := by
  have h := claim_C3 cfgW "dune" (by decide) (by decide) (by decide) (by decide)
    (by decide) (by decide) (by decide) (by decide)
  have hc := h.1 "magazine" (by decide)
  have he := h.2.1 "pdf" (by decide)
  refine ⟨by decide, by decide, hc.1, ?_, he.1, ?_⟩
  · have ht : tagItem cfgW.content_ignore "magazine" = "anti__magazine" := by decide
    rw [← ht]
    exact hc.2
  · have ht : tagItem cfgW.formats_ignore "pdf" = "anti__pdf" := by decide
    rw [← ht]
    exact he.2

theorem findFormat_mem {t : String} :
    ∀ {defs : List (String × FormatInfo)} {key : String} {info : FormatInfo},
      findFormat t defs = some (key, info) → (key, info) ∈ defs := by
  intro defs
  induction defs with
  | nil =>
    intro key info h
    exact Option.noConfusion h
  | cons kv rest ih =>
    intro key info h
    obtain ⟨k, i⟩ := kv
    unfold findFormat at h
    split at h
    · rw [Option.some.injEq] at h
      rw [← h]
      exact List.mem_cons_self _ _
    · exact List.mem_cons_of_mem _ (ih h)

/-- Everything `buildBook` guarantees about a book it emits: the format
key comes from the catalog, it is not ignored, and the partial-match
flag mirrors the presence of the page count. -/
theorem buildBook_some {c : Config} {count : Option Int} {i : Nat} {a : Anchor} {b : Book}
    (h : buildBook c count i a = some b) :
    b.format_key ∈ c.formats_defs.map Prod.fst ∧ b.format_key ∉ c.formats_ignore ∧
      b.is_partial_match = count.isSome := by
  cases hd : determine_format_type a.allText c with
  | none =>
    unfold buildBook at h
    rw [hd] at h
    exact Option.noConfusion h
  | some ki =>
    obtain ⟨key, info⟩ := ki
    have he : buildBook c count i a =
        if key ∈ c.formats_ignore then none
        else some
          { link := a.href
            title := a.titleElem.getD "Unknown Title"
            author := a.authorElem.getD "Unknown Author"
            format := a.formatElem.getD "Unknown format"
            format_key := key
            format_info := info
            format_priority := info.priority.getD 0
            original_index := i
            is_partial_match := count.isSome } := by
      unfold buildBook
      rw [hd]
    rw [he] at h
    split at h
    · exact Option.noConfusion h
    · rw [Option.some.injEq] at h
      subst h
      refine ⟨?_, by assumption, rfl⟩
      exact List.mem_map_of_mem Prod.fst (findFormat_mem hd)

/-- Membership in the unsorted extraction output forces the three
`buildBook` guarantees. -/
theorem mem_rawBooks {c : Config} {count : Option Int} :
    ∀ {anchors : List Anchor} {i : Nat} {b : Book}, b ∈ rawBooks c count i anchors →
      b.format_key ∈ c.formats_defs.map Prod.fst ∧ b.format_key ∉ c.formats_ignore ∧
        b.is_partial_match = count.isSome := by
  intro anchors
  induction anchors with
  | nil =>
    intro i b h
    exact absurd h (List.not_mem_nil b)
  | cons a rest ih =>
    intro i b h
    have he : rawBooks c count i (a :: rest) =
        match buildBook c count i a with
        | none => rawBooks c count (i + 1) rest
        | some b0 => b0 :: rawBooks c count (i + 1) rest := rfl
    rw [he] at h
    cases hb : buildBook c count i a with
    | none =>
      rw [hb] at h
      exact ih h
    | some b0 =>
      rw [hb] at h
      rcases List.mem_cons.mp h with h1 | h1
      · subst h1
        exact buildBook_some hb
      · exact ih h1

theorem mem_extract {page : Page} {c : Config} {b : Book}
    (h : b ∈ extract_search_results page c) :
    b ∈ rawBooks c (partialMatchesCount page) 0 page.anchors :=
  (List.perm_insertionSort rankLE _).mem_iff.mp h

/-- Claim C2: extraction output is exactly the stable sort under the
dual key (negated priority, original index) — the output is sorted under
that key (higher priority first, equal priority in original page order),
sorting permutes and never drops candidates, an already-sorted list is
left unchanged (so sorting is idempotent), and Scenario A ranks the
anchors at positions 0, 1, 2 as [0, 2, 1]. -/
theorem claim_C2 :
    (∀ page c, List.Sorted rankLE (extract_search_results page c)) ∧
    (∀ l, List.Perm (rankBooks l) l) ∧
    (∀ l, List.Sorted rankLE l → rankBooks l = l) ∧
    (∀ l, rankBooks (rankBooks l) = rankBooks l) ∧
    (extract_search_results pageA cfgA).map Book.original_index = [0, 2, 1] := by
  refine ⟨?_, ?_, ?_, ?_, by decide⟩
  · intro page c
    exact List.sorted_insertionSort rankLE _
  · intro l
    exact List.perm_insertionSort rankLE l
  · intro l h
    exact h.insertionSort_eq
  · intro l
    exact (List.sorted_insertionSort rankLE l).insertionSort_eq

/-- Witness for claim C2: a concrete sorted singleton is left unchanged
by the ranking sort. -/
theorem claim_C2_witness : List.Sorted rankLE [bDune] ∧ rankBooks [bDune] = [bDune] :=
  ⟨List.sorted_singleton bDune, claim_C2.2.2.1 [bDune] (List.sorted_singleton bDune)⟩

/-- Claim C6: no candidate in the extraction output has an unrecognized
format key (every key resolves through the catalog) or a key from the
ignore set. -/
theorem claim_C6 (page : Page) (c : Config) (b : Book)
    (h : b ∈ extract_search_results page c) :
    b.format_key ∈ c.formats_defs.map Prod.fst ∧ b.format_key ∉ c.formats_ignore :=
  ⟨(mem_rawBooks (mem_extract h)).1, (mem_rawBooks (mem_extract h)).2.1⟩

/-- Witness for claim C6 at the Scenario A fixture. -/
theorem claim_C6_witness :
    bEpubA0 ∈ extract_search_results pageA cfgA ∧
    bEpubA0.format_key ∈ cfgA.formats_defs.map Prod.fst ∧
    bEpubA0.format_key ∉ cfgA.formats_ignore :=
  ⟨by decide, claim_C6 pageA cfgA bEpubA0 (by decide)⟩

/-- Claim C7: when the page-level partial-matches indicator parses to a
count, every extracted candidate is flagged as a partial match; an
indicator whose first token is not an integer (or an indicator without a
`partial matches` text) yields no count, and extraction then behaves
exactly as if the indicator were absent; Scenario B (indicator
`3 partial matches` with two candidates) gives count 3 and both flags
true. -/
theorem claim_C7 :
    (∀ page c n, partialMatchesCount page = some n →
      ∀ b ∈ extract_search_results page c, b.is_partial_match = true) ∧
    (∀ page t, page.partialIndicator = some t → parseLeadingCount t = none →
      partialMatchesCount page = none) ∧
    (∀ page c, partialMatchesCount page = none →
      extract_search_results page c =
        extract_search_results { page with partialIndicator := none } c) ∧
    partialMatchesCount pageB = some 3 ∧
    (extract_search_results pageB cfgA).map Book.is_partial_match = [true, true] := by
  refine ⟨?_, ?_, ?_, by decide, by decide⟩
  · intro page c n hn b hb
    have hf := (mem_rawBooks (mem_extract hb)).2.2
    rw [hn] at hf
    exact hf
  · intro page t ht hparse
    unfold partialMatchesCount
    rw [ht]
    show (if strContainsB t "partial matches" = true then parseLeadingCount t else none) = none
    split
    · exact hparse
    · rfl
  · intro page c hnone
    unfold extract_search_results
    rw [hnone]
    rfl

/-- Witness for claim C7 at the Scenario B fixture. -/
theorem claim_C7_witness :
    partialMatchesCount pageB = some 3 ∧ bEpubB0.is_partial_match = true :=
  ⟨by decide, claim_C7.1 pageB cfgA 3 (by decide) bEpubB0 (by decide)⟩

/-- Counterexample to claim C1 as stated: in automatic mode the source
takes `books[0]` — for query `Dune` over the ranked list [Foundation
(priority 100), Dune (priority 80)] it returns the Foundation candidate,
although the Dune candidate is the one whose title contains the query
case-insensitively (the selection rule the claim describes, computed by
`claimedAutoSelect`, would return it). -/
theorem claim_C1_counterexample :
    (selectStage [bFoundation, bDune] false 0).2 = some bFoundation ∧
    bFoundation.title = "Foundation" ∧ bDune.title = "Dune" ∧
    strContainsB (pyLower bDune.title) (pyLower "Dune") = true ∧
    strContainsB (pyLower bFoundation.title) (pyLower "Dune") = false ∧
    strContainsB (pyLower bFoundation.author) (pyLower "Dune") = false ∧
    claimedAutoSelect [bFoundation, bDune] "Dune" = some bDune := by decide

/-- Claim C1 (amended): in automatic mode with multiple candidates the
source ignores the query and always returns the first (highest-ranked)
candidate, with no prompt; in particular the Scenario C query `Dune`
yields the Foundation candidate. -/
theorem claim_C1_amended :
    (∀ b rest pick, selectStage (b :: rest) false pick = (false, some b)) ∧
    (selectStage [bFoundation, bDune] false 0).2 = some bFoundation := by
  refine ⟨?_, by decide⟩
  intro b rest pick
  rfl

/-- Counterexample to claim C5 as stated: with exactly one candidate,
interactive mode still runs the selection menu (the prompt is shown). -/
theorem claim_C5_counterexample :
    (selectStage [bDune] true 0).1 = true ∧
    (display_selection_menu [bDune] 0).prompted = true := by decide

/-- Claim C5 (amended): a single candidate is returned without any
prompt in automatic mode, but in interactive mode the menu is still
presented — picking the only entry returns that candidate, picking the
cancel entry returns nothing. -/
theorem claim_C5_amended :
    (∀ b pick, selectStage [b] false pick = (false, some b)) ∧
    (∀ b pick, (selectStage [b] true pick).1 = true) ∧
    (∀ b, (selectStage [b] true 0).2 = some b) ∧
    (∀ b, (selectStage [b] true 1).2 = none) := by
  refine ⟨?_, ?_, ?_, ?_⟩ <;> intros <;> rfl

/-- Counterexample to claim C8 as stated: the source lowercases only the
text, not the catalog key, so the upper-case key `EPUB` — a
case-insensitive substring of the input `EPUB` — is never matched and
lookup returns nothing. -/
theorem claim_C8_counterexample :
    determine_format_type "EPUB" cfgUpper = none ∧
    ciSubstr "EPUB" "EPUB" = true ∧
    cfgUpper.formats_defs.map Prod.fst = ["EPUB"] := by decide

/-- Claim C8 (amended): format lookup returns the first catalog entry
whose key occurs verbatim as a substring of the lowercased input text —
case-insensitive in the text but exact in the key — scanning in catalog
order, and `none` (never an exception) when no key matches. -/
theorem claim_C8_amended (text : String) (c : Config) :
    determine_format_type text c =
      c.formats_defs.find? (fun kv => strContainsB (pyLower text) kv.1) := by
  unfold determine_format_type
  induction c.formats_defs with
  | nil => rfl
  | cons kv rest ih =>
    obtain ⟨k, i⟩ := kv
    cases hc : strContainsB (pyLower text) k
    · simp [findFormat, hc, List.find?_cons, ih]
    · simp [findFormat, hc, List.find?_cons]

/-- Claim C9: when the content-disposition header is absent the output
filename is `"{sanitized title} - {sanitized author}{extension}"`, with
sanitization removing exactly the characters `\\ / * ? : " < > |`. -/
theorem claim_C9 (headers : List (String × String)) (title author : String) (info : FormatInfo)
    (h : headerLookup headers "content-disposition" = none) :
    resolve_download_filename headers title author info =
      clean_filename title ++ " - " ++ clean_filename author ++ info.extension ∧
    (∀ s ch, ch ∈ (clean_filename s).data ↔ (ch ∈ s.data ∧ hostileChar ch = false)) := by
  constructor
  · unfold resolve_download_filename get_filename_from_headers
    rw [h]
  · intro s ch
    show ch ∈ s.data.filter (fun ch => !hostileChar ch) ↔ (ch ∈ s.data ∧ hostileChar ch = false)
    rw [List.mem_filter]
    simp

/-- Witness for claim C9: no headers, hostile characters in both the
title and the author. -/
theorem claim_C9_witness :
    headerLookup [] "content-disposition" = none ∧
    resolve_download_filename [] "a:b*" "c|d" epubInfo = "ab - cd.epub" := by
  have h := claim_C9 [] "a:b*" "c|d" epubInfo rfl
  refine ⟨rfl, ?_⟩
  rw [h.1]
  decide

theorem attemptLoop_spec (oracle : Nat → Outcome) (d : Nat) :
    ∀ remaining attempt,
      (attemptLoop oracle d attempt remaining).2.1 ≤ remaining ∧
      (∀ x ∈ (attemptLoop oracle d attempt remaining).2.2, x = d) ∧
      ((∀ k, oracle k ≠ Outcome.success) →
        (attemptLoop oracle d attempt remaining).1 = none ∧
        (attemptLoop oracle d attempt remaining).2.1 = remaining) := by
  intro remaining
  induction remaining with
  | zero =>
    intro attempt
    exact ⟨Nat.le_refl 0, by intro x hx; exact absurd hx (List.not_mem_nil x), fun _ => ⟨rfl, rfl⟩⟩
  | succ rem ih =>
    intro attempt
    cases rem with
    | zero =>
      cases ho : oracle attempt with
      | success =>
        rw [attemptLoop, ho]
        dsimp only
        refine ⟨Nat.le_refl 1, ?_, fun hall => absurd ho (hall attempt)⟩
        intro x hx
        exact absurd hx (List.not_mem_nil x)
      | timeout =>
        rw [attemptLoop, ho]
        dsimp only
        exact ⟨Nat.le_refl 1, by intro x hx; exact absurd hx (List.not_mem_nil x),
          fun _ => ⟨rfl, rfl⟩⟩
      | connError =>
        rw [attemptLoop, ho]
        dsimp only
        exact ⟨Nat.le_refl 1, by intro x hx; exact absurd hx (List.not_mem_nil x),
          fun _ => ⟨rfl, rfl⟩⟩
      | reqError =>
        rw [attemptLoop, ho]
        dsimp only
        exact ⟨Nat.le_refl 1, by intro x hx; exact absurd hx (List.not_mem_nil x),
          fun _ => ⟨rfl, rfl⟩⟩
    | succ r =>
      obtain ⟨ih1, ih2, ih3⟩ := ih (attempt + 1)
      cases ho : oracle attempt with
      | success =>
        rw [attemptLoop, ho]
        dsimp only
        refine ⟨by omega, ?_, fun hall => absurd ho (hall attempt)⟩
        intro x hx
        exact absurd hx (List.not_mem_nil x)
      | timeout =>
        rw [attemptLoop, ho]
        dsimp only
        refine ⟨by omega, ?_, fun hall => ⟨(ih3 hall).1, by rw [(ih3 hall).2]⟩⟩
        intro x hx
        rcases List.mem_cons.mp hx with h1 | h1
        · exact h1
        · exact ih2 x h1
      | connError =>
        rw [attemptLoop, ho]
        dsimp only
        refine ⟨by omega, ?_, fun hall => ⟨(ih3 hall).1, by rw [(ih3 hall).2]⟩⟩
        intro x hx
        rcases List.mem_cons.mp hx with h1 | h1
        · exact h1
        · exact ih2 x h1
      | reqError =>
        rw [attemptLoop, ho]
        dsimp only
        refine ⟨by omega, ?_, fun hall => ⟨(ih3 hall).1, by rw [(ih3 hall).2]⟩⟩
        intro x hx
        rcases List.mem_cons.mp hx with h1 | h1
        · exact h1
        · exact ih2 x h1

/-- Counterexample to claim C4 as stated: the fetcher can raise to the
caller.  A call with the unsupported method `put` hits the `raise
ValueError` branch inside the first loop iteration, which no except
clause catches — the exception escapes before any transport attempt. -/
theorem claim_C4_counterexample :
    robust_request "put" (fun _ => Outcome.timeout) 3 2 =
      { result := Except.error (), attempts := 0, sleeps := [] } := by decide

/-- Claim C4 (amended): for every call with a supported method (get,
head or post, case-insensitively), at most `retries` transport attempts
are made, no exception reaches the caller, every sleep between retries
lasts exactly the constant delay, and when every attempt fails the
result is `none` after exactly `retries` attempts. -/
theorem claim_C4_amended (method : String) (oracle : Nat → Outcome) (retries retryDelay : Nat)
    (h : supportedMethod method = true) :
    (robust_request method oracle retries retryDelay).attempts ≤ retries ∧
    (∃ v, (robust_request method oracle retries retryDelay).result = Except.ok v) ∧
    (∀ x ∈ (robust_request method oracle retries retryDelay).sleeps, x = retryDelay) ∧
    ((∀ k, oracle k ≠ Outcome.success) →
      (robust_request method oracle retries retryDelay).result = Except.ok none ∧
      (robust_request method oracle retries retryDelay).attempts = retries) := by
  unfold robust_request
  rw [if_pos h]
  obtain ⟨h1, h2, h3⟩ := attemptLoop_spec oracle retryDelay retries 1
  exact ⟨h1, ⟨(attemptLoop oracle retryDelay 1 retries).1, rfl⟩, h2,
    fun hall => ⟨by rw [(h3 hall).1], (h3 hall).2⟩⟩

/-- Witness for claim C4 (amended), which is also Scenario D: a get
request whose three attempts all time out returns `none` (no exception)
after exactly 3 attempts, sleeping the constant delay twice. -/
theorem claim_C4_witness :
    supportedMethod "get" = true ∧
    (robust_request "get" (fun _ => Outcome.timeout) 3 2).result = Except.ok none ∧
    (robust_request "get" (fun _ => Outcome.timeout) 3 2).attempts = 3 ∧
    (robust_request "get" (fun _ => Outcome.timeout) 3 2).attempts ≤ 3 := by
  have h := claim_C4_amended "get" (fun _ => Outcome.timeout) 3 2 (by decide)
  have h4 := h.2.2.2 (fun k hcontra => Outcome.noConfusion hcontra)
  exact ⟨by decide, h4.1, h4.2, h.1⟩
